import Mathlib

/-!
Verification of the Ockla snippet-evaluation engine.

The definitions below are a shallow embedding of the CodeExecutor service
(file src/unnamed/part_002, the current revision, plus the superseded
revision src/src/services/codeExecutor.ts where a claim cites it) and of
the OutputPanel differ (src/src/ui/outputPanel.ts).  Strings are modelled
as lists of characters; the three import-rewriting regular expressions are
modelled by dedicated matchers with the exact backtracking semantics of
the JavaScript patterns (which are deterministic maximal-munch matchers
because every adjacent pair of sub-patterns draws from disjoint character
classes); effectful pieces (the vm run, timers) are modelled by oracle
parameters describing what the effect produced.
-/

namespace Ockla

/-- The JavaScript whitespace class: the set matched by the regex class
backslash-s and trimmed by String.prototype.trim (ASCII whitespace,
NBSP, BOM, the Unicode space separators, and the line separators). -/
def isJsSpace (c : Char) : Bool :=
  c = ' ' || c = '\t' || c = '\n' || c = '\x0b' || c = '\x0c' || c = '\r' ||
  c.toNat = 0xA0 || c.toNat = 0x1680 ||
  (0x2000 ≤ c.toNat && c.toNat ≤ 0x200A) ||
  c.toNat = 0x2028 || c.toNat = 0x2029 || c.toNat = 0x202F || c.toNat = 0x205F ||
  c.toNat = 0x3000 || c.toNat = 0xFEFF

/-- The JavaScript word-character class (regex backslash-w). -/
def isWordChar (c : Char) : Bool :=
  ('a' ≤ c && c ≤ 'z') || ('A' ≤ c && c ≤ 'Z') || ('0' ≤ c && c ≤ '9') || c = '_'

/-- Decimal digits (regex backslash-d). -/
def isDigit (c : Char) : Bool := '0' ≤ c && c ≤ '9'

/-- A JavaScript line terminator (the characters NOT matched by the regex
dot without the s flag). -/
def isLineTerm (c : Char) : Bool :=
  c = '\n' || c = '\r' || c.toNat = 0x2028 || c.toNat = 0x2029

/-- Characters matched by the regex dot (no s flag). -/
def isDotChar (c : Char) : Bool := !isLineTerm c

/-- Split a character list at newline characters, exactly like the
JavaScript expression code.split(backslash-n): the result is always
non-empty, and an empty input yields one empty line. -/
def splitNl : List Char → List (List Char)
  | [] => [[]]
  | c :: rest =>
    match splitNl rest with
    | [] => [[]]
    | l :: ls => if c = '\n' then [] :: l :: ls else (c :: l) :: ls

/-- Join lines with newline characters, exactly like lines.join with a
newline separator. -/
def joinNl : List (List Char) → List Char
  | [] => []
  | [l] => l
  | l :: ls => l ++ '\n' :: joinNl ls

/-- Is `p` a prefix of `s` (on characters)? -/
def isPrefixL : List Char → List Char → Bool
  | [], _ => true
  | _ :: _, [] => false
  | p :: ps, s :: ss => p = s && isPrefixL ps ss

/-- Does `s` contain `p` as a contiguous substring
(String.prototype.includes)? -/
def containsL (p : List Char) : List Char → Bool
  | [] => isPrefixL p []
  | c :: rest => isPrefixL p (c :: rest) || containsL p rest

/-- Is `p` a suffix of `s` (String.prototype.endsWith)? -/
def isSuffixL (p s : List Char) : Bool := isPrefixL p.reverse s.reverse

/-- Remove trailing JavaScript whitespace. -/
def dropRightSpaces (l : List Char) : List Char :=
  (l.reverse.dropWhile isJsSpace).reverse

/-- String.prototype.trim: remove leading and trailing whitespace. -/
def trimL (l : List Char) : List Char :=
  dropRightSpaces (l.dropWhile isJsSpace)

/-! ## Import Normalizer (convertImportsToRequire, part_002 lines 217-237)

The three replacement passes use the JavaScript regexes

  1. import backslash-s+ (backslash-w+) backslash-s+ from ['"]([^'"]+)['"]
  2. import backslash-s+ brace ([^closing-brace]+) brace backslash-s+ from ['"]([^'"]+)['"]
  3. import backslash-s+ asterisk backslash-s+ as backslash-s+ (backslash-w+) backslash-s+ from ['"]([^'"]+)['"]

with global replacement.  In each pattern every greedy quantifier is
followed by a literal or class disjoint from the quantified class, so the
regex backtracking search is equivalent to maximal-munch matching; the
matchers below implement exactly that.  A successful match consumes at
least the six characters of the literal "import", a fact proved below and
used to justify the fuel bound of the scanner. -/

/-- Expect the literal `lit` at the head of `s`; return the rest. -/
def litM (lit : List Char) (s : List Char) : Option (List Char) :=
  if isPrefixL lit s then some (s.drop lit.length) else none

/-- Match backslash-s+ (one or more whitespace characters, greedily). -/
def spaces1M (s : List Char) : Option (List Char) :=
  match s with
  | c :: _ => if isJsSpace c then some (s.dropWhile isJsSpace) else none
  | [] => none

/-- Match one or more characters of class `p`, greedily; return the run
and the rest. -/
def class1M (p : Char → Bool) (s : List Char) : Option (List Char × List Char) :=
  match s.takeWhile p with
  | [] => none
  | c :: cs => some (c :: cs, s.dropWhile p)

/-- Match a single quote character (the class of single or double quote). -/
def quoteM (s : List Char) : Option (List Char) :=
  match s with
  | c :: rest => if c = '\'' || c = '"' then some rest else none
  | [] => none

/-- Is `c` neither a single nor a double quote? -/
def notQuote (c : Char) : Bool := !(c = '\'' || c = '"')

/-- The replacement text const NAME = require(quote MODULE quote) of
passes 1 and 3. -/
def requireRepl (name modname : List Char) : List Char :=
  "const ".data ++ name ++ " = require(".data ++ '\'' :: modname ++ '\'' :: ")".data

/-- Matcher for pattern 1 (default import) anchored at the head of `s`:
on success, the replacement text and the unconsumed rest. -/
def tryDefaultImport (s : List Char) : Option (List Char × List Char) :=
  (litM "import".data s).bind fun s1 =>
  (spaces1M s1).bind fun s2 =>
  (class1M isWordChar s2).bind fun (name, s3) =>
  (spaces1M s3).bind fun s4 =>
  (litM "from".data s4).bind fun s5 =>
  (spaces1M s5).bind fun s6 =>
  (quoteM s6).bind fun s7 =>
  (class1M notQuote s7).bind fun (modname, s8) =>
  (quoteM s8).map fun s9 =>
  (requireRepl name modname, s9)

/-- Matcher for pattern 2 (named destructuring import) anchored at the
head of `s`. -/
def tryNamedImport (s : List Char) : Option (List Char × List Char) :=
  (litM "import".data s).bind fun s1 =>
  (spaces1M s1).bind fun s2 =>
  (litM ['\x7b'] s2).bind fun s3 =>
  (class1M (fun c => !(c = '\x7d')) s3).bind fun (names, s4) =>
  (litM ['\x7d'] s4).bind fun s5 =>
  (spaces1M s5).bind fun s6 =>
  (litM "from".data s6).bind fun s7 =>
  (spaces1M s7).bind fun s8 =>
  (quoteM s8).bind fun s9 =>
  (class1M notQuote s9).bind fun (modname, s10) =>
  (quoteM s10).map fun s11 =>
  ("const \x7b".data ++ names ++ "\x7d = require(".data ++
     '\'' :: modname ++ '\'' :: ")".data, s11)

/-- Matcher for pattern 3 (namespace import) anchored at the head of `s`. -/
def tryNamespaceImport (s : List Char) : Option (List Char × List Char) :=
  (litM "import".data s).bind fun s1 =>
  (spaces1M s1).bind fun s2 =>
  (litM ['*'] s2).bind fun s3 =>
  (spaces1M s3).bind fun s4 =>
  (litM "as".data s4).bind fun s5 =>
  (spaces1M s5).bind fun s6 =>
  (class1M isWordChar s6).bind fun (name, s7) =>
  (spaces1M s7).bind fun s8 =>
  (litM "from".data s8).bind fun s9 =>
  (spaces1M s9).bind fun s10 =>
  (quoteM s10).bind fun s11 =>
  (class1M notQuote s11).bind fun (modname, s12) =>
  (quoteM s12).map fun s13 =>
  (requireRepl name modname, s13)

/-- One global-replacement pass of String.prototype.replace with a global
regex: scan left to right; at each position, if the matcher succeeds emit
the replacement and continue after the match, otherwise keep the
character.  The fuel starts at length + 1; because every successful match
consumes at least one character (see the consumption lemmas below), the
fuel is never exhausted and the zero-fuel branch is unreachable. -/
def replacePassF (tm : List Char → Option (List Char × List Char)) :
    Nat → List Char → List Char
  | 0, s => s
  | _ + 1, [] => []
  | fuel + 1, c :: rest =>
    match tm (c :: rest) with
    | some (rep, restAfter) => rep ++ replacePassF tm fuel restAfter
    | none => c :: replacePassF tm fuel rest

/-- One global-replacement pass over `s`. -/
def replacePassL (tm : List Char → Option (List Char × List Char))
    (s : List Char) : List Char :=
  replacePassF tm (s.length + 1) s

/-- convertImportsToRequire (part_002 lines 217-237): the three
replacement passes applied in source order. -/
def convertImportsToRequireL (s : List Char) : List Char :=
  replacePassL tryNamespaceImport
    (replacePassL tryNamedImport
      (replacePassL tryDefaultImport s))

/-- String-level convertImportsToRequire. -/
def convertImportsToRequire (s : String) : String :=
  String.mk (convertImportsToRequireL s.data)

/-! ## Expression Auto-Logger (wrapCodeToCapture, part_002 lines 244-343)

The transform walks the lines once, carrying the insideMultiLine flag,
the bracket depth and the insideChainedCall flag, and rewrites a line to
an explicit console.log call exactly when it reaches the shouldAutoLog
classifier and matches one of its patterns.  The classifier regexes are
modelled below; as with the import patterns, the quantifier/literal
boundaries are between disjoint classes except where the regex dot also
matches spaces, and there the models implement the exact
existential-split semantics of the backtracking search. -/

/-- Does the trimmed line start with a dot (used by the look-ahead of the
chained-call handling)? -/
def trimStartsDot (l : List Char) : Bool :=
  match trimL l with
  | c :: _ => c = '.'
  | [] => false

/-- The class of word characters and dots from the chained-call regex. -/
def isWordDot (c : Char) : Bool := isWordChar c || c = '.'

/-- The anchored regex caret [word-dot]+ backslash-( [^)]* backslash-) dollar
used both as the chained-call test (line 302) and as shouldAutoLog
pattern 1 (line 407). -/
def chainCallTest (t : List Char) : Bool :=
  match class1M isWordDot t with
  | some (_, r) =>
    match r with
    | '(' :: r2 => r2.dropWhile (fun c => !(c = ')')) = [')']
    | _ => false
  | none => false

/-- The variable-declaration test caret (const|let|var) backslash-s+
(backslash-w+) backslash-s* = (part_002 line 271). -/
def varDeclTest (t : List Char) : Bool :=
  [("const" : String), "let", "var"].any fun kw =>
    match litM kw.data t with
    | some r =>
      match spaces1M r with
      | some r2 =>
        (match class1M isWordChar r2 with
         | some (_, r3) =>
           (match r3.dropWhile isJsSpace with
            | '=' :: _ => true
            | _ => false)
         | none => false)
      | none => false
    | none => false

/-- isControlFlowStatement (part_002 lines 350-362). -/
def isControlFlowStatement (t : List Char) : Bool :=
  [("function" : String), "class", "import", "export",
   "if", "else", "for", "while", "do", "switch", "case", "default",
   "try", "catch", "finally", "throw", "return", "break", "continue"].any
    fun kw =>
      isPrefixL (kw.data ++ [' ']) t || isPrefixL (kw.data ++ ['(']) t ||
      isPrefixL (kw.data ++ ['\x7b']) t

/-- isStructuralLine (part_002 lines 369-380). -/
def isStructuralLine (t : List Char) : Bool :=
  t = ['\x7b'] || t = ['\x7d'] || t = ['\x7d', ';'] ||
  isSuffixL ['\x7b'] t || t = ['\x7d', ')'] || t = [')', ';'] ||
  t = [']'] || t = [']', ',']

/-- The trailing-continuation test [.+times-slash-comma] dollar of
shouldAutoLog (line 389): the last character is a dot, an arithmetic
operator or a comma. -/
def endsWithContinuation (t : List Char) : Bool :=
  match t.reverse with
  | c :: _ => c = '.' || c = '+' || c = '-' || c = '*' || c = '/' || c = ','
  | [] => false

/-- The promise-chain test caret backslash-. (then|catch|finally)
backslash-( (line 394). -/
def isPromiseChainLine (t : List Char) : Bool :=
  isPrefixL ".then(".data t || isPrefixL ".catch(".data t ||
  isPrefixL ".finally(".data t

/-- Strip one trailing semicolon (the replace of /;$/ at line 399). -/
def stripSemi (t : List Char) : List Char :=
  match t.reverse with
  | ';' :: restRev => restRev.reverse
  | _ => t

/-- An arithmetic operator of patterns 4 and 5. -/
def isOpChar (c : Char) : Bool :=
  c = '+' || c = '-' || c = '*' || c = '/' || c = '%'

/-- The semantics of the regex fragment backslash-s* .+ dollar on the rest
of the line: some (possibly empty) whitespace prefix followed by at least
one character, none of which is a line terminator, reaching the end.
Because the dot also matches spaces, the backtracking search succeeds
exactly when such a split exists. -/
def spacesDotPlusEnd : List Char → Bool
  | [] => false
  | c :: rest => (c :: rest).all isDotChar || (isJsSpace c && spacesDotPlusEnd rest)

/-- shouldAutoLog pattern 2: caret [word-dot]+ backslash-[ [^closing]+
backslash-] dollar (array or object access). -/
def accessTest (t : List Char) : Bool :=
  match class1M isWordDot t with
  | some (_, r) =>
    match r with
    | '[' :: r2 =>
      (match class1M (fun c => !(c = ']')) r2 with
       | some (_, r3) => r3 = [']']
       | none => false)
    | _ => false
  | none => false

/-- shouldAutoLog pattern 3: caret [word-dot]+ dollar (bare identifier or
property path). -/
def identTest (t : List Char) : Bool :=
  !t.isEmpty && t.all isWordDot

/-- shouldAutoLog pattern 4: caret backslash-d+ backslash-s* [op]
backslash-s* .+ dollar (math with a numeric left operand). -/
def numMathTest (t : List Char) : Bool :=
  match class1M isDigit t with
  | some (_, r) =>
    (match r.dropWhile isJsSpace with
     | c :: rest => isOpChar c && spacesDotPlusEnd rest
     | [] => false)
  | none => false

/-- shouldAutoLog pattern 5: caret .+ backslash-s* [op] backslash-s* .+
dollar.  The backtracking search succeeds exactly when some operator
occurrence splits the line into a left part of the shape
(dot-chars)+ (spaces)* — whose reverse satisfies `spacesDotPlusEnd` —
and a right part of the shape (spaces)* (dot-chars)+. -/
def anyMathTest : List Char → List Char → Bool
  | _, [] => false
  | preRev, c :: post =>
    (isOpChar c && spacesDotPlusEnd preRev && spacesDotPlusEnd post) ||
    anyMathTest (c :: preRev) post

/-- shouldAutoLog pattern 6: caret new backslash-s+ backslash-w+
backslash-( [^)]* backslash-) dollar (constructor call). -/
def newCallTest (t : List Char) : Bool :=
  match litM "new".data t with
  | some r =>
    (match spaces1M r with
     | some r2 =>
       (match class1M isWordChar r2 with
        | some (_, r3) =>
          (match r3 with
           | '(' :: r4 => r4.dropWhile (fun c => !(c = ')')) = [')']
           | _ => false)
        | none => false)
     | none => false)
  | none => false

/-- shouldAutoLog patterns 7 and 8: caret open .* close dollar for a
standalone bracket or brace literal (the dot does not match line
terminators). -/
def literalTest (openC closeC : Char) (t : List Char) : Bool :=
  match t with
  | c :: rest =>
    c = openC &&
    (match rest.reverse with
     | d :: midRev => d = closeC && midRev.all isDotChar
     | [] => false)
  | [] => false

/-- shouldAutoLog (part_002 lines 387-418). -/
def shouldAutoLog (t : List Char) : Bool :=
  if endsWithContinuation t then false
  else if isPromiseChainLine t then false
  else
    let t' := stripSemi t
    chainCallTest t' || accessTest t' || identTest t' || numMathTest t' ||
    anyMathTest [] t' || newCallTest t' || literalTest '[' ']' t' ||
    literalTest '\x7b' '\x7d' t'

/-- Opening brackets counted by the multi-line tracking (the regex class
[open-bracket open-brace]). -/
def countOpens (t : List Char) : Int :=
  (t.countP (fun c => c = '[' || c = '\x7b') : Int)

/-- Closing brackets counted by the multi-line tracking. -/
def countCloses (t : List Char) : Int :=
  (t.countP (fun c => c = ']' || c = '\x7d') : Int)

/-- The loop state of wrapCodeToCapture (part_002 lines 250-252). -/
structure WrapSt where
  insideMultiLine : Bool
  bracketDepth : Int
  insideChainedCall : Bool
deriving DecidableEq

/-- The initial loop state. -/
def initWrapSt : WrapSt := ⟨false, 0, false⟩

/-- The rewritten form of an auto-logged line (line 335-336): original
indentation, then console.log of the trimmed content. -/
def wrapLine (line : List Char) : List Char :=
  line.takeWhile isJsSpace ++ "console.log(".data ++ trimL line ++ [')']

/-- The state update of the variable-declaration branch
(part_002 lines 271-283). -/
def varUpd (st : WrapSt) (t : List Char) : WrapSt :=
  if containsL ['['] t || containsL ['\x7b'] t then
    let d := countOpens t - countCloses t
    { st with insideMultiLine := !(d = 0), bracketDepth := d }
  else st

/-- The state update of the multi-line branch (part_002 lines 286-299). -/
def multiUpd (st : WrapSt) (t : List Char) : WrapSt :=
  let d := st.bracketDepth + countOpens t - countCloses t
  if d ≤ 0 then { st with insideMultiLine := false, bracketDepth := 0 }
  else { st with bracketDepth := d }

/-- The exit test of the chained-call branch (part_002 line 315): the
chain ends when the line does not start with a dot, or ends with a
closing parenthesis while the next line does not start with a dot
(a missing next line counts as not starting with a dot). -/
def chainContinue (t : List Char) (nextDot : Bool) : Bool :=
  if !(trimStartsDot t) || (isSuffixL [')'] t && !nextDot) then false else true

/-- One iteration of the wrapCodeToCapture loop on the raw line `line`,
where `nextDot` tells whether the following raw line exists and its
trimmed form starts with a dot.  Returns the emitted line and the next
state.  The branches appear in exactly the source order
(part_002 lines 254-340). -/
def stepB (st : WrapSt) (line : List Char) (nextDot : Bool) :
    List Char × WrapSt :=
  let t := trimL line
  if t.isEmpty || isPrefixL "//".data t || isPrefixL "/*".data t ||
      isPrefixL ['*'] t then
    (line, st)
  else if containsL "console.".data t then
    (line, st)
  else if varDeclTest t then
    (line, varUpd st t)
  else if st.insideMultiLine then
    (line, multiUpd st t)
  else if chainCallTest t && !isSuffixL ");".data t && nextDot then
    (line, { st with insideChainedCall := true })
  else if st.insideChainedCall then
    (line, { st with insideChainedCall := chainContinue t nextDot })
  else if isControlFlowStatement t then
    (line, st)
  else if isStructuralLine t then
    (line, st)
  else if shouldAutoLog t then
    (wrapLine line, st)
  else
    (line, st)

/-- The look-ahead used by the chained-call branches: whether the first
of the remaining lines, if any, starts (trimmed) with a dot. -/
def nextDotHead : List (List Char) → Bool
  | [] => false
  | n :: _ => trimStartsDot n

/-- The wrapCodeToCapture loop over the list of lines. -/
def wrapGo : WrapSt → List (List Char) → List (List Char)
  | _, [] => []
  | st, x :: xs =>
    let r := stepB st x (nextDotHead xs)
    r.1 :: wrapGo r.2 xs

/-- wrapCodeToCapture (part_002 lines 244-343): split at newlines, walk
the loop, join with newlines. -/
def wrapCodeToCapture (s : String) : String :=
  String.mk (joinNl (wrapGo initWrapSt (splitNl s.data)))

/-- wrapCodeForAsync (part_002 lines 527-530) delegates to
wrapCodeToCapture. -/
def wrapCodeForAsync (s : String) : String := wrapCodeToCapture s

/-- The source-to-source pipeline applied by execute before compiling
(part_002 lines 38 and 167): import normalization, then the auto-logger. -/
def transformPipeline (s : String) : String :=
  wrapCodeForAsync (convertImportsToRequire s)

/-! ## Value Stringifier (stringify, part_002 lines 425-520)

Runtime JavaScript values are modelled by `JsValue`.  Numbers are
restricted to integers (their decimal rendering is exact there; float
rendering is irrelevant to the claims); objects are association lists in
property-creation order with distinct keys, which is what JavaScript
guarantees; a date value carries its ISO string (its JSON form); a
function value carries its source text (its String() form). -/

inductive JsValue where
  | undefinedV : JsValue
  | nullV : JsValue
  | boolV : Bool → JsValue
  | numV : Int → JsValue
  | strV : String → JsValue
  | fnV : String → JsValue
  | dateV : String → JsValue
  | arrV : List JsValue → JsValue
  | objV : List (String × JsValue) → JsValue

/-- The JavaScript typeof operator on the modelled values. -/
def typeofStr : JsValue → String
  | .undefinedV => "undefined"
  | .nullV => "object"
  | .boolV _ => "boolean"
  | .numV _ => "number"
  | .strV _ => "string"
  | .fnV _ => "function"
  | .dateV _ => "object"
  | .arrV _ => "object"
  | .objV _ => "object"

/-- JavaScript truthiness of the modelled values (empty string and zero
are falsy). -/
def jsTruthy : JsValue → Bool
  | .undefinedV => false
  | .nullV => false
  | .boolV b => b
  | .numV n => !(n = 0)
  | .strV s => !(s = "")
  | .fnV _ => true
  | .dateV _ => true
  | .arrV _ => true
  | .objV _ => true

/-- escapeHtml (part_002 lines 511-520). -/
def escapeHtml (s : String) : String :=
  String.join (s.data.map fun c =>
    if c = '&' then "&amp;"
    else if c = '<' then "&lt;"
    else if c = '>' then "&gt;"
    else if c = '"' then "&quot;"
    else if c = '\'' then "&#039;"
    else String.mk [c])

/-- JSON string escaping (the quoting JSON.stringify applies to string
values and property names). -/
def jsonQuote (s : String) : String :=
  "\"" ++ String.join (s.data.map fun c =>
    if c = '"' then "\\\""
    else if c = '\\' then "\\\\"
    else if c = '\n' then "\\n"
    else if c = '\r' then "\\r"
    else if c = '\t' then "\\t"
    else if c = '\x08' then "\\b"
    else if c = '\x0c' then "\\f"
    else String.mk [c]) ++ "\""

/-- The decimal rendering of the modelled numbers. -/
def numRepr (n : Int) : String := toString n

/-- The String() conversion of a modelled value (only used on values
whose typeof is not object). -/
def jsToString : JsValue → String
  | .undefinedV => "undefined"
  | .nullV => "null"
  | .boolV b => if b then "true" else "false"
  | .numV n => numRepr n
  | .strV s => s
  | .fnV src => src
  | .dateV iso => iso
  | .arrV _ => ""
  | .objV _ => ""

/-- Compact JSON.stringify(value) with no indentation, as used for nested
table cells (part_002 line 496).  Undefined and function values become
null inside arrays and are skipped inside objects; a date serializes to
its quoted ISO string. -/
def isUndefOrFn : JsValue → Bool
  | .undefinedV => true
  | .fnV _ => true
  | _ => false

def jsonStr : JsValue → String
  | .undefinedV => "undefined"
  | .nullV => "null"
  | .boolV b => if b then "true" else "false"
  | .numV n => numRepr n
  | .strV s => jsonQuote s
  | .fnV _ => "undefined"
  | .dateV iso => jsonQuote iso
  | .arrV l =>
    "[" ++ String.intercalate ","
      (l.attach.map fun ⟨v, hv⟩ =>
        if isUndefOrFn v then "null" else jsonStr v) ++ "]"
  | .objV kvs =>
    "\x7b" ++ String.intercalate ","
      (kvs.attach.filterMap fun ⟨kv, hkv⟩ =>
        if isUndefOrFn kv.2 then none
        else some (jsonQuote kv.1 ++ ":" ++ jsonStr kv.2)) ++ "\x7d"
  decreasing_by
  · have := List.sizeOf_lt_of_mem hv
    simp_wf
    omega
  · have := List.sizeOf_lt_of_mem hkv
    cases kv
    simp_wf
    simp_all
    omega

/-- Pretty JSON.stringify(value, null, 2): two-space indentation per
nesting level, key-colon-space separators, one entry per line (the
general fallback of stringify at part_002 line 445).  The circular
fallback of the source is unreachable here because the modelled values
are finite trees. -/
def jsonPretty (lvl : Nat) : JsValue → String
  | .undefinedV => "undefined"
  | .nullV => "null"
  | .boolV b => if b then "true" else "false"
  | .numV n => numRepr n
  | .strV s => jsonQuote s
  | .fnV _ => "undefined"
  | .dateV iso => jsonQuote iso
  | .arrV [] => "[]"
  | .arrV (v0 :: vs) =>
    let inner := (v0 :: vs).attach.map fun ⟨v, _⟩ =>
      String.mk (List.replicate (2 * (lvl + 1)) ' ') ++
        (if isUndefOrFn v then "null" else jsonPretty (lvl + 1) v)
    "[\n" ++ String.intercalate ",\n" inner ++ "\n" ++
      String.mk (List.replicate (2 * lvl) ' ') ++ "]"
  | .objV kvs =>
    let inner := kvs.attach.filterMap fun ⟨kv, _⟩ =>
      if isUndefOrFn kv.2 then none
      else some (String.mk (List.replicate (2 * (lvl + 1)) ' ') ++
        jsonQuote kv.1 ++ ": " ++ jsonPretty (lvl + 1) kv.2)
    if inner.isEmpty then "\x7b\x7d"
    else "\x7b\n" ++ String.intercalate ",\n" inner ++ "\n" ++
      String.mk (List.replicate (2 * lvl) ' ') ++ "\x7d"
  termination_by v => sizeOf v
  decreasing_by
  · have := List.sizeOf_lt_of_mem ‹v ∈ v0 :: vs›
    simp_wf
    simp_all
    omega
  · have := List.sizeOf_lt_of_mem ‹kv ∈ kvs›
    cases kv
    simp_wf
    simp_all
    omega

/-- isArrayOfObjects (part_002 lines 454-460): the array is non-empty and
its first element is non-null, of typeof object, not an array and not a
date. -/
def isArrayOfObjects (arr : List JsValue) : Bool :=
  match arr with
  | [] => false
  | first :: _ =>
    !(match first with | .nullV => true | _ => false) &&
    typeofStr first = "object" &&
    !(match first with | .arrV _ => true | _ => false) &&
    !(match first with | .dateV _ => true | _ => false)

/-- Object.keys of a modelled value: own enumerable string keys in
property order (array indices for arrays, none for dates and
primitives). -/
def jsOwnKeys : JsValue → List String
  | .objV kvs => kvs.map (·.1)
  | .arrV l => (List.range l.length).map toString
  | _ => []

/-- The guard `obj && typeof obj === 'object'` of the key-collection loop
(part_002 line 471): keys contribute only for truthy object-typed
elements. -/
def jsKeysIfObject (v : JsValue) : List String :=
  if jsTruthy v && typeofStr v = "object" then jsOwnKeys v else []

/-- Insert a key into the ordered key set if not present (the Set.add of
part_002 line 472). -/
def insertKey (acc : List String) (k : String) : List String :=
  if k ∈ acc then acc else acc ++ [k]

/-- The header list of formatAsTable (part_002 lines 469-476): the union
of the element key lists in first-appearance order. -/
def collectKeys (arr : List JsValue) : List String :=
  arr.foldl (fun acc o => (jsKeysIfObject o).foldl insertKey acc) []

/-- JavaScript string-keyed property access obj[header] as used for table
cells (part_002 line 493): association lookup on objects, index lookup on
arrays, undefined elsewhere. -/
def jsGet (v : JsValue) (k : String) : JsValue :=
  match v with
  | .objV kvs =>
    (match kvs.find? (fun kv => kv.1 = k) with
     | some kv => kv.2
     | none => .undefinedV)
  | .arrV l =>
    (match (l.zip (List.range l.length)).find? (fun p => toString p.2 = k) with
     | some p => p.1
     | none => .undefinedV)
  | _ => .undefinedV

/-- The cell rendering of formatAsTable (part_002 lines 494-497):
undefined to empty, null to the literal null, object-typed values to
compact JSON, anything else to its String() form. -/
def displayValue (v : JsValue) : String :=
  match v with
  | .undefinedV => ""
  | .nullV => "null"
  | w => if typeofStr w = "object" then jsonStr w else jsToString w

/-- formatAsTable (part_002 lines 465-506), transcribed with the string
concatenations of the source (the forEach loops become foldl over the
accumulated string). -/
def formatAsTable (arr : List JsValue) : String :=
  if arr.length = 0 then "[]"
  else
    let headers := collectKeys arr
    let t1 := "<table class=\"data-table\">\n" ++ "  <thead>\n    <tr>\n"
    let t2 := headers.foldl
      (fun acc h => acc ++ "      <th>" ++ escapeHtml h ++ "</th>\n") t1
    let t3 := t2 ++ "    </tr>\n  </thead>\n" ++ "  <tbody>\n"
    let t4 := arr.foldl
      (fun acc o =>
        (headers.foldl
          (fun acc2 h =>
            acc2 ++ "      <td>" ++ escapeHtml (displayValue (jsGet o h)) ++
              "</td>\n")
          (acc ++ "    <tr>\n")) ++ "    </tr>\n")
      t3
    t4 ++ "  </tbody>\n" ++ "</table>"

/-- stringify (part_002 lines 425-449): special cases in source order,
then the table check for non-empty object arrays, then pretty JSON. -/
def stringify (v : JsValue) : String :=
  match v with
  | .undefinedV => "undefined"
  | .nullV => "null"
  | .strV s => s
  | .fnV src => src
  | .arrV l =>
    if l.length > 0 && isArrayOfObjects l then formatAsTable l
    else jsonPretty 0 (.arrV l)
  | w => jsonPretty 0 w

/-! ## Sandbox Execution Environment (execute, part_002 lines 29-210)

The vm run, the awaited promise and the drain timer are effects; they are
modelled by oracle parameters: the lines the capture functions appended
during the synchronous run, the outcome of the synchronous run, the lines
appended while awaiting a returned thenable, and the lines appended
during the drain window.  The control skeleton of execute — the try/catch
boundary, the local recovery of a rejection, the output joining and the
result construction — is transcribed exactly. -/

/-- The recognized execution options (src/types.ts plus the options read
by part_002: timeout, asyncTimeout, workingDirectory). -/
structure CodeExecutionOptions where
  timeout : Option Nat := none
  memory : Option Nat := none
  asyncTimeout : Option Nat := none
  workingDirectory : Option String := none
deriving DecidableEq

/-- ExecutionResult (src/types.ts). -/
structure ExecutionResult where
  success : Bool
  output : String
  error : Option String := none
  executionTime : Option Nat := none
deriving DecidableEq

/-- The JavaScript default-by-falsiness idiom `x || d` on an optional
numeric option: absent or zero falls back to the default. -/
def jsOrNum (x : Option Nat) (d : Nat) : Nat :=
  match x with
  | some n => if n = 0 then d else n
  | none => d

/-- The effective CPU timeout of the vm run: options.timeout || 5000
(part_002 lines 10 and 173). -/
def effectiveTimeout (o : CodeExecutionOptions) : Nat :=
  jsOrNum o.timeout 5000

/-- The effective asynchronous drain window of the current executor:
options.asyncTimeout || 2000 (part_002 line 188). -/
def effectiveAsyncTimeout (o : CodeExecutionOptions) : Nat :=
  jsOrNum o.asyncTimeout 2000

/-- The effective asynchronous drain window of the superseded executor
revision: options.asyncTimeout || 500
(src/src/services/codeExecutor.ts line 85). -/
def effectiveAsyncTimeoutLegacy (o : CodeExecutionOptions) : Nat :=
  jsOrNum o.asyncTimeout 500

/-- How the value returned by the synchronous vm run settles, when the
run completed without throwing: either it was not a thenable, or it was
a thenable that resolved, or one that rejected with a message, in the
latter two cases carrying the output lines appended while execute was
awaiting it. -/
inductive ThenableResult where
  | notThenable : ThenableResult
  | resolved : List String → ThenableResult
  | rejected : List String → String → ThenableResult

/-- The outcome of the synchronous vm run: an exception (compile error,
runtime throw or timeout abort) with its message, or completion with a
returned value. -/
inductive SyncOutcome where
  | threw : String → SyncOutcome
  | completed : ThenableResult → SyncOutcome

/-- execute (part_002 lines 29-210), with the effects supplied by the
oracle parameters: `syncLines` are the lines captured before the
synchronous run ended (or before it threw), `outcome` is its outcome,
`drainLines` are the lines captured during the drain window, and
`elapsed` is the measured wall-clock duration. -/
def execute (_opts : CodeExecutionOptions) (syncLines : List String)
    (outcome : SyncOutcome) (drainLines : List String) (elapsed : Nat) :
    ExecutionResult :=
  match outcome with
  | .threw msg =>
    { success := false
      output := if syncLines.length > 0 then String.intercalate "\n" syncLines else ""
      error := some msg
      executionTime := some elapsed }
  | .completed th =>
    let afterAwait :=
      match th with
      | .notThenable => syncLines
      | .resolved aw => syncLines ++ aw
      | .rejected aw msg => (syncLines ++ aw) ++ ["[ERROR] " ++ msg]
    let outputs := afterAwait ++ drainLines
    { success := true
      output :=
        if outputs.length > 0 then String.intercalate "\n" outputs
        else "(sin salida)"
      error := none
      executionTime := some elapsed }

/-- The console.log capture of the sandbox context (part_002 lines
92-95): stringify each argument, join with one space, append. -/
def consoleLogCapture (outputs : List String) (args : List JsValue) :
    List String :=
  outputs ++ [String.intercalate " " (args.map stringify)]

/-- The console.error capture (part_002 lines 96-99): the joined text
prefixed by the ERROR tag. -/
def consoleErrorCapture (outputs : List String) (args : List JsValue) :
    List String :=
  outputs ++ ["[ERROR] " ++ String.intercalate " " (args.map stringify)]

/-- The console.warn capture (part_002 lines 100-103): the joined text
prefixed by the WARN tag. -/
def consoleWarnCapture (outputs : List String) (args : List JsValue) :
    List String :=
  outputs ++ ["[WARN] " ++ String.intercalate " " (args.map stringify)]

/-- validateCode (part_002 lines 547-553). -/
def validateCode (code : String) : Bool :=
  !(code = "") && !((trimL code.data).length = 0)

/-! ## Incremental Render Differ (outputPanel.ts lines 36-216) -/

/-- One entry of the output patch produced by getDiff. -/
inductive OutputChange where
  | add : Nat → String → OutputChange
  | remove : Nat → OutputChange
  | modify : Nat → String → OutputChange
deriving DecidableEq

/-- The patch produced by getDiff (outputPanel.ts lines 182-186). -/
structure DiffResult where
  executionTime : Option Nat
  success : Bool
  outputChanges : List OutputChange
deriving DecidableEq

/-- String-level line split (output.split at newlines). -/
def splitLinesStr (s : String) : List String :=
  (splitNl s.data).map String.mk

/-- getDiff (outputPanel.ts lines 177-216): split both outputs into
lines, then walk the indices up to the longer length, appending an add,
remove or modify entry per the source branches. -/
def getDiff (oldR newR : ExecutionResult) : DiffResult :=
  let oldLines := splitLinesStr oldR.output
  let newLines := splitLinesStr newR.output
  let maxLen := max oldLines.length newLines.length
  { executionTime := newR.executionTime
    success := newR.success
    outputChanges :=
      (List.range maxLen).foldl
        (fun acc i =>
          if oldLines.length ≤ i then
            acc ++ [OutputChange.add i (newLines.getD i "")]
          else if newLines.length ≤ i then
            acc ++ [OutputChange.remove i]
          else if ¬ oldLines.getD i "" = newLines.getD i "" then
            acc ++ [OutputChange.modify i (newLines.getD i "")]
          else acc)
        [] }

/-- JavaScript truthiness of an optional string field (an absent field
and an empty string are both falsy). -/
def jsTruthyStrOpt : Option String → Bool
  | none => false
  | some s => !(s = "")

/-- canDoIncrementalUpdate (outputPanel.ts lines 160-172). -/
def canDoIncrementalUpdate (oldR newR : ExecutionResult) : Bool :=
  if !(oldR.success = newR.success) || jsTruthyStrOpt newR.error then false
  else if oldR.output = "" || newR.output = "" then false
  else true

/-- The branch decision of update (outputPanel.ts lines 41-55): an
incremental patch is posted exactly when a previous result is retained
and canDoIncrementalUpdate accepts the pair; otherwise the panel html is
fully re-rendered. -/
def updateUsesIncremental (lastResult : Option ExecutionResult)
    (result : ExecutionResult) : Bool :=
  match lastResult with
  | some oldR => canDoIncrementalUpdate oldR result
  | none => false

/-! ## Claim-side definitions

These definitions follow the wording of the specification claims, for
comparison with the source-shaped definitions above. -/

/-- Claim side (C6): no position of the text matches any of the three
recognized import shapes. -/
def NoImportShape (s : List Char) : Prop :=
  ∀ i, i < s.length →
    tryDefaultImport (s.drop i) = none ∧
    tryNamedImport (s.drop i) = none ∧
    tryNamespaceImport (s.drop i) = none

instance (s : List Char) : Decidable (NoImportShape s) := by
  unfold NoImportShape
  infer_instance

/-- Claim side (C8): the patch entry the claim prescribes for index `i`:
an index present only in the new output is an add with its content, an
index present only in the old output is a remove, an index present in
both with differing content is a modify with the new content, and a
matching index produces no entry. -/
def claimDiffEntry (oldLines newLines : List String) (i : Nat) :
    Option OutputChange :=
  if i < newLines.length ∧ ¬ i < oldLines.length then
    some (.add i (newLines.getD i ""))
  else if i < oldLines.length ∧ ¬ i < newLines.length then
    some (.remove i)
  else if i < oldLines.length ∧ i < newLines.length ∧
      ¬ oldLines.getD i "" = newLines.getD i "" then
    some (.modify i (newLines.getD i ""))
  else none

/-- Claim side (C9): the current result carries an error, read with the
truthiness the source applies to the optional error field (an empty
string does not count as carrying an error). -/
def carriesError (r : ExecutionResult) : Prop :=
  ∃ e, r.error = some e ∧ ¬ e = ""

/-- Claim side (C7): deduplicate keeping first occurrences. -/
def dedupFirst (l : List String) : List String := l.foldl insertKey []

/-- Claim side (C7): the union of the keys of all elements in order of
first appearance. -/
def claimHeaders (arr : List JsValue) : List String :=
  dedupFirst (arr.flatMap jsKeysIfObject)

/-- Concatenation of a list of strings. -/
def strConcat : List String → String
  | [] => ""
  | x :: rest => x ++ strConcat rest

/-- Claim side (C7): the table skeleton with one header cell per header,
one body row per element and one body cell per header. -/
def tableHtml (headerCells : List String) (rows : List (List String)) :
    String :=
  "<table class=\"data-table\">\n" ++ "  <thead>\n    <tr>\n" ++
  strConcat (headerCells.map fun h => "      <th>" ++ h ++ "</th>\n") ++
  "    </tr>\n  </thead>\n" ++ "  <tbody>\n" ++
  strConcat (rows.map fun cells =>
    "    <tr>\n" ++
    strConcat (cells.map fun c => "      <td>" ++ c ++ "</td>\n") ++
    "    </tr>\n") ++
  "  </tbody>\n" ++ "</table>"

/-! ## Helper lemmas -/

theorem intercalate_nil_str : String.intercalate "\n" ([] : List String) = "" := rfl

theorem foldl_emit_filterMap (f : Nat → Option OutputChange) :
    ∀ (l : List Nat) (acc : List OutputChange),
      l.foldl (fun a i => a ++ (f i).toList) acc = acc ++ l.filterMap f := by
  intro l
  induction l with
  | nil => intro acc; simp
  | cons i l ih =>
    intro acc
    simp only [List.foldl_cons, List.filterMap_cons]
    rw [ih]
    cases f i <;> simp

theorem filterMap_congr_on (f g : Nat → Option OutputChange) :
    ∀ (l : List Nat), (∀ i ∈ l, f i = g i) →
      l.filterMap f = l.filterMap g := by
  intro l
  induction l with
  | nil => intro _; rfl
  | cons i l ih =>
    intro h
    simp only [List.filterMap_cons]
    rw [h i (by simp), ih (fun j hj => h j (by simp [hj]))]

theorem isPrefixL_append_self : ∀ (p x : List Char), isPrefixL p (p ++ x) = true := by
  intro p x
  induction p with
  | nil => rfl
  | cons c cs ih => simp [isPrefixL, ih]

/-! ## Claim C2 -/

/-- C2 (corrected), counterexample to the claim as stated: a synchronous
throw whose error object carries an empty message (the snippet
throw new Error with an empty string) produces a failure result whose
error description is the empty string, so the description is not always
non-empty. -/
theorem C2_counterexample :
    (execute {} [] (.threw "") [] 0).success = false ∧
    (execute {} [] (.threw "") [] 0).error = some "" := by
  constructor <;> rfl

/-- C2 (amended): execute never raises past its boundary — every failure
outcome of the synchronous run is turned into a result with success
false, the error field carrying exactly the failure message (hence
non-empty exactly when that message is), and the output field carrying
exactly the lines captured before the failure joined with newlines (the
empty string when nothing was captured). -/
theorem C2_execute_failure_contract :
    ∀ (opts : CodeExecutionOptions) (syncLines : List String) (msg : String)
      (drainLines : List String) (elapsed : Nat),
      (execute opts syncLines (.threw msg) drainLines elapsed).success = false ∧
      (execute opts syncLines (.threw msg) drainLines elapsed).output =
        String.intercalate "\n" syncLines ∧
      ∃ e, (execute opts syncLines (.threw msg) drainLines elapsed).error = some e ∧
        e = msg ∧ ((e = "") ↔ (msg = "")) := by
  intro opts syncLines msg drainLines elapsed
  refine ⟨rfl, ?_, msg, rfl, rfl, Iff.rfl⟩
  show (if syncLines.length > 0 then String.intercalate "\n" syncLines else "") = _
  cases syncLines with
  | nil => simp [intercalate_nil_str]
  | cons a l => simp

/-! ## Claim C3 -/

/-- C3 (corrected), counterexample to the claim as stated: when the
caller supplies no asyncTimeout option, the current executor falls back
to 2000 milliseconds, not 500. -/
theorem C3_counterexample :
    effectiveAsyncTimeout {} = 2000 ∧ ¬ effectiveAsyncTimeout {} = 500 := by
  constructor <;> decide

/-- C3 (amended): when the caller supplies no asyncTimeout option the
current executor (part_002) waits a 2000 millisecond drain window, while
the superseded executor revision (src/src/services/codeExecutor.ts)
waited the 500 milliseconds the specification records; the 500
millisecond figure survives only as the configuration layer default,
which always supplies the option explicitly. -/
theorem C3_drain_window_defaults :
    ∀ opts : CodeExecutionOptions, opts.asyncTimeout = none →
      effectiveAsyncTimeout opts = 2000 ∧
      effectiveAsyncTimeoutLegacy opts = 500 := by
  intro opts h
  unfold effectiveAsyncTimeout effectiveAsyncTimeoutLegacy jsOrNum
  rw [h]
  exact ⟨rfl, rfl⟩

/-- Witness for C3_drain_window_defaults at the empty option record. -/
theorem C3_drain_window_defaults_witness :
    ({} : CodeExecutionOptions).asyncTimeout = none ∧
    (effectiveAsyncTimeout {} = 2000 ∧ effectiveAsyncTimeoutLegacy {} = 500) :=
  ⟨rfl, C3_drain_window_defaults {} rfl⟩

/-! ## Claim C4 -/

/-- C4 (confirmed): when the synchronous run returns a pending thenable
that later rejects, execute recovers the rejection locally — the result
still has success true and no error field, and its output is the lines
captured synchronously, then the lines captured while awaiting, then the
rejection message appended as an ERROR line, then the drain-window lines:
everything captured is preserved and the rejection does not flip the
result to failure. -/
theorem C4_async_rejection_recovered :
    ∀ (opts : CodeExecutionOptions) (syncLines awaitLines : List String)
      (msg : String) (drainLines : List String) (elapsed : Nat),
      (execute opts syncLines (.completed (.rejected awaitLines msg))
          drainLines elapsed).success = true ∧
      (execute opts syncLines (.completed (.rejected awaitLines msg))
          drainLines elapsed).error = none ∧
      (execute opts syncLines (.completed (.rejected awaitLines msg))
          drainLines elapsed).output =
        String.intercalate "\n"
          (syncLines ++ awaitLines ++ ["[ERROR] " ++ msg] ++ drainLines) := by
  intro opts syncLines awaitLines msg drainLines elapsed
  refine ⟨rfl, rfl, ?_⟩
  show (if (((syncLines ++ awaitLines) ++ ["[ERROR] " ++ msg]) ++ drainLines).length > 0
      then String.intercalate "\n" (((syncLines ++ awaitLines) ++ ["[ERROR] " ++ msg]) ++ drainLines)
      else "(sin salida)") = _
  rw [if_pos (by simp)]

/-! ## Claim C9 -/

/-- C9 (confirmed): with a previous result retained, the update path
posts an incremental patch exactly when the success flags agree, the
current result carries no (non-empty) error, and both outputs are
non-empty; in every other case the panel is fully re-rendered.  The
source reads the optional error field by JavaScript truthiness, so an
error field holding the empty string counts as carrying no error. -/
theorem C9_incremental_update_iff :
    ∀ oldR newR : ExecutionResult,
      updateUsesIncremental (some oldR) newR = true ↔
        (oldR.success = newR.success ∧ ¬ carriesError newR ∧
         ¬ oldR.output = "" ∧ ¬ newR.output = "") := by
  intro oldR newR
  show canDoIncrementalUpdate oldR newR = true ↔ _
  unfold canDoIncrementalUpdate carriesError jsTruthyStrOpt
  cases newR.error with
  | none =>
    constructor
    · intro h
      by_cases h1 : oldR.success = newR.success <;>
        by_cases h2 : oldR.output = "" <;>
        by_cases h3 : newR.output = "" <;>
        simp_all
    · intro ⟨h1, _, h3, h4⟩
      simp_all
  | some e =>
    constructor
    · intro h
      by_cases he : e = "" <;>
        by_cases h1 : oldR.success = newR.success <;>
        by_cases h2 : oldR.output = "" <;>
        by_cases h3 : newR.output = "" <;>
        simp_all
    · intro ⟨h1, h2, h3, h4⟩
      have he : e = "" := by
        by_contra hne
        exact h2 ⟨e, rfl, hne⟩
      simp_all

/-! ## Claim C10 -/

/-- C10 (confirmed): each line captured through the sandbox console.error
is the space-joined independent stringification of the arguments prefixed
with the ERROR tag, each console.warn line likewise with the WARN tag,
and each console.log line is exactly the joined text with no prefix. -/
theorem C10_console_prefixes :
    ∀ (outputs : List String) (args : List JsValue),
      (∃ l, consoleErrorCapture outputs args = outputs ++ [l] ∧
        isPrefixL "[ERROR] ".data l.data = true ∧
        l.data.drop 8 = (String.intercalate " " (args.map stringify)).data) ∧
      (∃ l, consoleWarnCapture outputs args = outputs ++ [l] ∧
        isPrefixL "[WARN] ".data l.data = true ∧
        l.data.drop 7 = (String.intercalate " " (args.map stringify)).data) ∧
      consoleLogCapture outputs args =
        outputs ++ [String.intercalate " " (args.map stringify)] := by
  intro outputs args
  refine ⟨⟨"[ERROR] " ++ String.intercalate " " (args.map stringify), rfl, ?_, ?_⟩,
          ⟨"[WARN] " ++ String.intercalate " " (args.map stringify), rfl, ?_, ?_⟩,
          rfl⟩
  · rw [String.data_append]
    exact isPrefixL_append_self _ _
  · rw [String.data_append, show (8 : Nat) = ("[ERROR] ".data).length from rfl,
      List.drop_left]
  · rw [String.data_append]
    exact isPrefixL_append_self _ _
  · rw [String.data_append, show (7 : Nat) = ("[WARN] ".data).length from rfl,
      List.drop_left]

/-! ## Claim C8 -/

theorem getDiff_changes_eq_claim (ol nl : List String) :
    (List.range (max ol.length nl.length)).foldl
      (fun acc i =>
        if ol.length ≤ i then acc ++ [OutputChange.add i (nl.getD i "")]
        else if nl.length ≤ i then acc ++ [OutputChange.remove i]
        else if ¬ ol.getD i "" = nl.getD i "" then
          acc ++ [OutputChange.modify i (nl.getD i "")]
        else acc) [] =
    (List.range (max ol.length nl.length)).filterMap (claimDiffEntry ol nl) := by
  have hfun : (fun (acc : List OutputChange) i =>
      if ol.length ≤ i then acc ++ [OutputChange.add i (nl.getD i "")]
      else if nl.length ≤ i then acc ++ [OutputChange.remove i]
      else if ¬ ol.getD i "" = nl.getD i "" then
        acc ++ [OutputChange.modify i (nl.getD i "")]
      else acc) =
      (fun acc i => acc ++
        (if ol.length ≤ i then some (OutputChange.add i (nl.getD i ""))
         else if nl.length ≤ i then some (OutputChange.remove i)
         else if ¬ ol.getD i "" = nl.getD i "" then
           some (OutputChange.modify i (nl.getD i ""))
         else none).toList) := by
    funext acc i
    split_ifs <;> simp
  rw [hfun, foldl_emit_filterMap, List.nil_append]
  apply filterMap_congr_on
  intro i hi
  rw [List.mem_range] at hi
  unfold claimDiffEntry
  by_cases ho : i < ol.length <;> by_cases hn : i < nl.length <;>
    split_ifs <;> first | rfl | omega | tauto

/-- C8 (confirmed): getDiff compares the two outputs line by line up to
the longer length and its patch is exactly the entry list the claim
prescribes (add for indices only in the new output, remove for indices
only in the old, modify with the new content for differing indices,
nothing for matching indices), with the current success flag and
execution time passed through; in particular the outputs a,b versus a,c
yield exactly one modify entry at index 1 with content c. -/
theorem C8_diff_index_by_index :
    (∀ oldR newR : ExecutionResult,
      (getDiff oldR newR).outputChanges =
        (List.range (max (splitLinesStr oldR.output).length
            (splitLinesStr newR.output).length)).filterMap
          (claimDiffEntry (splitLinesStr oldR.output)
            (splitLinesStr newR.output)) ∧
      (getDiff oldR newR).success = newR.success ∧
      (getDiff oldR newR).executionTime = newR.executionTime) ∧
    getDiff { success := true, output := "a\nb", executionTime := some 5 }
        { success := true, output := "a\nc", executionTime := some 7 } =
      { executionTime := some 7, success := true,
        outputChanges := [OutputChange.modify 1 "c"] } := by
  constructor
  · intro oldR newR
    exact ⟨getDiff_changes_eq_claim _ _, rfl, rfl⟩
  · decide

/-! ## Claim C6 -/

theorem dropWhile_length_le (p : Char → Bool) (l : List Char) :
    (l.dropWhile p).length ≤ l.length :=
  (List.dropWhile_suffix p).sublist.length_le

theorem litM_le (lit s r : List Char) : litM lit s = some r →
    r.length ≤ s.length := by
  intro h
  unfold litM at h
  split at h
  · cases h
    simp [List.length_drop]
  · cases h

theorem spaces1M_le (s r : List Char) : spaces1M s = some r →
    r.length ≤ s.length := by
  intro h
  cases s with
  | nil => simp [spaces1M] at h
  | cons c rest =>
    simp only [spaces1M] at h
    split at h
    · cases h
      exact dropWhile_length_le _ _
    · cases h

theorem class1M_le (p : Char → Bool) (s run r : List Char) :
    class1M p s = some (run, r) → r.length ≤ s.length := by
  intro h
  unfold class1M at h
  split at h
  · cases h
  · cases h
    exact dropWhile_length_le _ _

theorem quoteM_lt (s r : List Char) : quoteM s = some r →
    r.length < s.length := by
  intro h
  cases s with
  | nil => simp [quoteM] at h
  | cons c rest =>
    simp only [quoteM] at h
    split at h
    · cases h
      simp
    · cases h

theorem tryDefaultImport_consumes (s rep r : List Char) :
    tryDefaultImport s = some (rep, r) → r.length < s.length := by
  unfold tryDefaultImport
  intro h
  simp only [Option.bind_eq_some, Option.map_eq_some'] at h
  obtain ⟨s1, h1, s2, h2, ⟨name, s3⟩, h3, s4, h4, s5, h5, s6, h6, s7, h7,
    ⟨modname, s8⟩, h8, s9, h9, heq⟩ := h
  cases heq
  have l1 := litM_le _ _ _ h1
  have l2 := spaces1M_le _ _ h2
  have l3 := class1M_le _ _ _ _ h3
  have l4 := spaces1M_le _ _ h4
  have l5 := litM_le _ _ _ h5
  have l6 := spaces1M_le _ _ h6
  have l7 := quoteM_lt _ _ h7
  have l8 := class1M_le _ _ _ _ h8
  have l9 := quoteM_lt _ _ h9
  dsimp only at *
  omega

theorem tryNamedImport_consumes (s rep r : List Char) :
    tryNamedImport s = some (rep, r) → r.length < s.length := by
  unfold tryNamedImport
  intro h
  simp only [Option.bind_eq_some, Option.map_eq_some'] at h
  obtain ⟨s1, h1, s2, h2, s3, h3, ⟨names, s4⟩, h4, s5, h5, s6, h6, s7, h7,
    s8, h8, s9, h9, ⟨modname, s10⟩, h10, s11, h11, heq⟩ := h
  cases heq
  have l1 := litM_le _ _ _ h1
  have l2 := spaces1M_le _ _ h2
  have l3 := litM_le _ _ _ h3
  have l4 := class1M_le _ _ _ _ h4
  have l5 := litM_le _ _ _ h5
  have l6 := spaces1M_le _ _ h6
  have l7 := litM_le _ _ _ h7
  have l8 := spaces1M_le _ _ h8
  have l9 := quoteM_lt _ _ h9
  have l10 := class1M_le _ _ _ _ h10
  have l11 := quoteM_lt _ _ h11
  dsimp only at *
  omega

theorem tryNamespaceImport_consumes (s rep r : List Char) :
    tryNamespaceImport s = some (rep, r) → r.length < s.length := by
  unfold tryNamespaceImport
  intro h
  simp only [Option.bind_eq_some, Option.map_eq_some'] at h
  obtain ⟨s1, h1, s2, h2, s3, h3, s4, h4, s5, h5, s6, h6, ⟨name, s7⟩, h7,
    s8, h8, s9, h9, s10, h10, s11, h11, ⟨modname, s12⟩, h12, s13, h13, heq⟩ := h
  cases heq
  have l1 := litM_le _ _ _ h1
  have l2 := spaces1M_le _ _ h2
  have l3 := litM_le _ _ _ h3
  have l4 := spaces1M_le _ _ h4
  have l5 := litM_le _ _ _ h5
  have l6 := spaces1M_le _ _ h6
  have l7 := class1M_le _ _ _ _ h7
  have l8 := spaces1M_le _ _ h8
  have l9 := litM_le _ _ _ h9
  have l10 := spaces1M_le _ _ h10
  have l11 := quoteM_lt _ _ h11
  have l12 := class1M_le _ _ _ _ h12
  have l13 := quoteM_lt _ _ h13
  dsimp only at *
  omega

theorem replacePassF_fuel (tm : List Char → Option (List Char × List Char))
    (hc : ∀ u rep r, tm u = some (rep, r) → r.length < u.length) :
    ∀ (n : Nat) (s : List Char) (f1 f2 : Nat), s.length ≤ n →
      s.length < f1 → s.length < f2 →
      replacePassF tm f1 s = replacePassF tm f2 s := by
  intro n
  induction n with
  | zero =>
    intro s f1 f2 hn h1 h2
    have hs : s = [] := List.length_eq_zero.mp (Nat.le_zero.mp hn)
    subst hs
    cases f1 with
    | zero => omega
    | succ g1 =>
      cases f2 with
      | zero => omega
      | succ g2 => rfl
  | succ n ih =>
    intro s f1 f2 hn h1 h2
    cases s with
    | nil =>
      cases f1 with
      | zero => omega
      | succ g1 =>
        cases f2 with
        | zero => omega
        | succ g2 => rfl
    | cons c rest =>
      simp only [List.length_cons] at hn h1 h2
      cases f1 with
      | zero => omega
      | succ g1 =>
        cases f2 with
        | zero => omega
        | succ g2 =>
          show (match tm (c :: rest) with
            | some (rep, restAfter) => rep ++ replacePassF tm g1 restAfter
            | none => c :: replacePassF tm g1 rest) =
            (match tm (c :: rest) with
            | some (rep, restAfter) => rep ++ replacePassF tm g2 restAfter
            | none => c :: replacePassF tm g2 rest)
          cases hm : tm (c :: rest) with
          | some pr =>
            obtain ⟨rep, r⟩ := pr
            have hr := hc _ _ _ hm
            simp only [List.length_cons] at hr
            simp only []
            rw [ih r g1 g2 (by omega) (by omega) (by omega)]
          | none =>
            simp only []
            rw [ih rest g1 g2 (by omega) (by omega) (by omega)]

theorem replacePassF_id (tm : List Char → Option (List Char × List Char)) :
    ∀ (f : Nat) (s : List Char), s.length < f →
      (∀ i, i < s.length → tm (s.drop i) = none) →
      replacePassF tm f s = s := by
  intro f
  induction f with
  | zero => intro s h; omega
  | succ g ih =>
    intro s hf hnone
    cases s with
    | nil => rfl
    | cons c rest =>
      simp only [List.length_cons] at hf
      have h0 : tm (c :: rest) = none := by
        have := hnone 0 (by simp)
        rwa [List.drop_zero] at this
      show (match tm (c :: rest) with
        | some (rep, restAfter) => rep ++ replacePassF tm g restAfter
        | none => c :: replacePassF tm g rest) = c :: rest
      rw [h0]
      rw [ih rest (by omega)
        (fun i hi => by
          have := hnone (i + 1) (by simp only [List.length_cons]; omega)
          rwa [List.drop_succ_cons] at this)]

theorem replacePassL_span (tm : List Char → Option (List Char × List Char))
    (hc : ∀ u rep r, tm u = some (rep, r) → r.length < u.length) :
    ∀ (k : Nat) (s rep rest : List Char),
      (∀ j, j < k → tm (s.drop j) = none) →
      tm (s.drop k) = some (rep, rest) →
      replacePassL tm s = s.take k ++ rep ++ replacePassL tm rest := by
  intro k
  induction k with
  | zero =>
    intro s rep rest _ hk
    rw [List.drop_zero] at hk
    cases s with
    | nil =>
      have := hc _ _ _ hk
      simp at this
    | cons c r0 =>
      have hlt := hc _ _ _ hk
      show replacePassF tm ((c :: r0).length + 1) (c :: r0) = _
      show (match tm (c :: r0) with
        | some (rep', restAfter) => rep' ++ replacePassF tm ((c :: r0).length) restAfter
        | none => c :: replacePassF tm ((c :: r0).length) r0) = _
      rw [hk]
      dsimp only
      rw [replacePassF_fuel tm hc rest.length rest (c :: r0).length
        (rest.length + 1) (le_refl _) hlt (by omega)]
      rfl
  | succ k ih =>
    intro s rep rest hj hk
    cases s with
    | nil =>
      rw [List.drop_nil] at hk
      have := hc _ _ _ hk
      simp at this
    | cons c r0 =>
      have h0 : tm (c :: r0) = none := by
        have := hj 0 (by omega)
        rwa [List.drop_zero] at this
      show replacePassF tm ((c :: r0).length + 1) (c :: r0) = _
      show (match tm (c :: r0) with
        | some (rep', restAfter) => rep' ++ replacePassF tm ((c :: r0).length) restAfter
        | none => c :: replacePassF tm ((c :: r0).length) r0) = _
      rw [h0]
      dsimp only
      rw [replacePassF_fuel tm hc r0.length r0 (c :: r0).length
        (r0.length + 1) (le_refl _) (by simp) (by omega)]
      rw [show replacePassF tm (r0.length + 1) r0 = replacePassL tm r0 from rfl]
      rw [ih r0 rep rest
        (fun j hjj => by
          have := hj (j + 1) (by omega)
          rwa [List.drop_succ_cons] at this)
        (by rwa [List.drop_succ_cons] at hk)]
      simp [List.take_succ_cons]

theorem replacePassL_id (tm : List Char → Option (List Char × List Char))
    (s : List Char) (h : ∀ i, i < s.length → tm (s.drop i) = none) :
    replacePassL tm s = s :=
  replacePassF_id tm (s.length + 1) s (by omega) h

/-- C6 (confirmed): first, an input in which no position matches any of
the three recognized import shapes is returned byte for byte unchanged by
convertImportsToRequire; second, each replacement pass touches only the
matched spans — before the first match the text is copied verbatim, the
matched span is replaced, and the pass continues identically on the rest
(the consumption hypothesis holds for all three matchers by the lemmas
above). -/
theorem C6_import_normalizer_locality :
    (∀ s : String, NoImportShape s.data → convertImportsToRequire s = s) ∧
    (∀ (tm : List Char → Option (List Char × List Char)),
      (∀ u rep r, tm u = some (rep, r) → r.length < u.length) →
      ∀ (k : Nat) (s rep rest : List Char),
        (∀ j, j < k → tm (s.drop j) = none) →
        tm (s.drop k) = some (rep, rest) →
        replacePassL tm s = s.take k ++ rep ++ replacePassL tm rest) := by
  constructor
  · intro s hns
    unfold convertImportsToRequire convertImportsToRequireL
    rw [replacePassL_id tryDefaultImport s.data
      (fun i hi => ((hns i hi).1)),
      replacePassL_id tryNamedImport s.data
      (fun i hi => ((hns i hi).2.1)),
      replacePassL_id tryNamespaceImport s.data
      (fun i hi => ((hns i hi).2.2))]
  · exact replacePassL_span

/-- Witness for C6_import_normalizer_locality: the first part applied to
a shape-free input, the second to the default-import matcher with a match
at position zero. -/
theorem C6_import_normalizer_locality_witness :
    (NoImportShape ("2 + 2" : String).data ∧
     convertImportsToRequire "2 + 2" = "2 + 2") ∧
    (tryDefaultImport (("import a from ".data ++ '\'' :: "m".data ++ ['\'']).drop 0) =
        some (requireRepl "a".data "m".data, []) ∧
     replacePassL tryDefaultImport ("import a from ".data ++ '\'' :: "m".data ++ ['\'']) =
       ("import a from ".data ++ '\'' :: "m".data ++ ['\'']).take 0 ++
         requireRepl "a".data "m".data ++ replacePassL tryDefaultImport []) :=
  ⟨⟨by decide, C6_import_normalizer_locality.1 "2 + 2" (by decide)⟩,
   ⟨by decide,
    C6_import_normalizer_locality.2 tryDefaultImport tryDefaultImport_consumes
      0 _ _ _ (fun j hj => absurd hj (by omega)) (by decide)⟩⟩

/-! ## Claim C1 -/

theorem splitNl_ne_nil : ∀ l : List Char, ¬ splitNl l = [] := by
  intro l
  induction l with
  | nil => simp [splitNl]
  | cons c rest ih =>
    simp only [splitNl]
    cases hsp : splitNl rest with
    | nil => exact absurd hsp ih
    | cons h t =>
      by_cases hc : c = '\n' <;> simp [hc]

theorem mem_splitNl_no_nl : ∀ (l : List Char) (x : List Char),
    x ∈ splitNl l → ¬ '\n' ∈ x := by
  intro l
  induction l with
  | nil =>
    intro x hx
    simp [splitNl] at hx
    simp [hx]
  | cons c rest ih =>
    intro x hx
    simp only [splitNl] at hx
    cases hsp : splitNl rest with
    | nil => exact absurd hsp (splitNl_ne_nil rest)
    | cons h t =>
      rw [hsp] at hx
      dsimp only at hx
      have hht : ∀ y, y ∈ h :: t → ¬ '\n' ∈ y := by
        intro y hy
        exact ih y (hsp ▸ hy)
      by_cases hc : c = '\n'
      · rw [if_pos hc] at hx
        rcases List.mem_cons.mp hx with h1 | h1
        · subst h1; simp
        · exact hht x h1
      · rw [if_neg hc] at hx
        rcases List.mem_cons.mp hx with h1 | h1
        · subst h1
          intro hmem
          rcases List.mem_cons.mp hmem with h2 | h2
          · exact hc h2.symm
          · exact hht h (by simp) h2
        · exact hht x (by simp [h1])

theorem splitNl_single (l : List Char) (h : ¬ '\n' ∈ l) : splitNl l = [l] := by
  induction l with
  | nil => rfl
  | cons c rest ih =>
    have hc : ¬ c = '\n' := fun he => h (by simp [he])
    have hr : ¬ '\n' ∈ rest := fun hm => h (by simp [hm])
    simp only [splitNl, ih hr]
    simp [hc]

theorem splitNl_append_nl (l r : List Char) (h : ¬ '\n' ∈ l) :
    splitNl (l ++ '\n' :: r) = l :: splitNl r := by
  induction l with
  | nil =>
    simp only [List.nil_append, splitNl]
    cases hsp : splitNl r with
    | nil => exact absurd hsp (splitNl_ne_nil r)
    | cons h t => simp
  | cons c rest ih =>
    have hc : ¬ c = '\n' := fun he => h (by simp [he])
    have hr : ¬ '\n' ∈ rest := fun hm => h (by simp [hm])
    simp only [List.cons_append, splitNl, List.append_eq]
    rw [ih hr]
    simp [hc]

theorem splitNl_joinNl : ∀ ls : List (List Char), ¬ ls = [] →
    (∀ x ∈ ls, ¬ '\n' ∈ x) → splitNl (joinNl ls) = ls := by
  intro ls
  induction ls with
  | nil => intro h; exact absurd rfl h
  | cons l ls ih =>
    intro _ hnl
    cases ls with
    | nil =>
      show splitNl (joinNl [l]) = [l]
      exact splitNl_single l (hnl l (by simp))
    | cons l2 ls2 =>
      show splitNl (l ++ '\n' :: joinNl (l2 :: ls2)) = l :: l2 :: ls2
      rw [splitNl_append_nl l _ (hnl l (by simp))]
      rw [ih (by simp) (fun x hx => hnl x (by simp at hx ⊢; tauto))]

theorem wrapGo_length : ∀ (st : WrapSt) (ls : List (List Char)),
    (wrapGo st ls).length = ls.length := by
  intro st ls
  induction ls generalizing st with
  | nil => rfl
  | cons x xs ih => simp [wrapGo, ih]

theorem stepB_fst (st : WrapSt) (x : List Char) (nd : Bool) :
    (stepB st x nd).1 = x ∨ (stepB st x nd).1 = wrapLine x := by
  unfold stepB
  dsimp only
  repeat' split
  all_goals simp

theorem trimL_sublist (l : List Char) : List.Sublist (trimL l) l := by
  unfold trimL dropRightSpaces
  have h1 : List.Sublist
      ((l.dropWhile isJsSpace).reverse.dropWhile isJsSpace)
      (l.dropWhile isJsSpace).reverse :=
    (List.dropWhile_suffix isJsSpace).sublist
  have h2 := h1.reverse
  rw [List.reverse_reverse] at h2
  exact h2.trans ((List.dropWhile_suffix isJsSpace).sublist)

theorem no_nl_wrapLine (x : List Char) (h : ¬ '\n' ∈ x) :
    ¬ '\n' ∈ wrapLine x := by
  unfold wrapLine
  intro hmem
  simp only [List.mem_append] at hmem
  rcases hmem with ((h1 | h1) | h1) | h1
  · exact h ((List.takeWhile_sublist isJsSpace).subset h1)
  · revert h1; decide
  · exact h ((trimL_sublist x).subset h1)
  · revert h1; decide

theorem wrapGo_no_nl : ∀ (st : WrapSt) (ls : List (List Char)),
    (∀ x ∈ ls, ¬ '\n' ∈ x) → ∀ y ∈ wrapGo st ls, ¬ '\n' ∈ y := by
  intro st ls
  induction ls generalizing st with
  | nil => intro _ y hy; simp [wrapGo] at hy
  | cons x xs ih =>
    intro hls y hy
    simp only [wrapGo] at hy
    rcases List.mem_cons.mp hy with h1 | h1
    · subst h1
      rcases stepB_fst st x (nextDotHead xs) with h2 | h2 <;> rw [h2]
      · exact hls x (by simp)
      · exact no_nl_wrapLine x (hls x (by simp))
    · exact ih _ (fun z hz => hls z (by simp [hz])) y h1

theorem wrapGo_getD : ∀ (ls : List (List Char)) (st : WrapSt) (i : Nat),
    i < ls.length →
    (wrapGo st ls).getD i [] = ls.getD i [] ∨
    (wrapGo st ls).getD i [] = wrapLine (ls.getD i []) := by
  intro ls
  induction ls with
  | nil => intro st i h; simp at h
  | cons x xs ih =>
    intro st i hi
    cases i with
    | zero =>
      simp only [wrapGo, List.getD_cons_zero]
      exact stepB_fst st x (nextDotHead xs)
    | succ j =>
      simp only [wrapGo, List.getD_cons_succ]
      exact ih _ j (by simp at hi; omega)

theorem wrap_split (s : String) :
    splitNl (wrapCodeToCapture s).data = wrapGo initWrapSt (splitNl s.data) := by
  show splitNl (joinNl (wrapGo initWrapSt (splitNl s.data))) = _
  apply splitNl_joinNl
  · intro h
    have h1 := wrapGo_length initWrapSt (splitNl s.data)
    rw [h] at h1
    exact splitNl_ne_nil s.data (List.length_eq_zero.mp h1.symm)
  · exact wrapGo_no_nl _ _ (mem_splitNl_no_nl s.data)

/-- C1 (corrected), counterexample to the claim as stated: an import
statement broken across two lines is matched by the first import regex —
whose whitespace class matches newlines — and is merged into a single
require line, so the transformed program has one line where the input had
two. -/
theorem C1_counterexample :
    (splitNl (transformPipeline (String.mk
      ("import a\nfrom ".data ++ '\'' :: "m".data ++ ['\'']))).data).length = 1 ∧
    (splitNl (String.mk
      ("import a\nfrom ".data ++ '\'' :: "m".data ++ ['\''])).data).length = 2 := by
  constructor <;> decide

/-- C1 (amended): the Expression Auto-Logger preserves the line count for
every input, and each output line is the corresponding input line either
unchanged or rewritten in place to its console.log wrapper, so lines are
never reordered, merged, added or removed by that stage; consequently the
whole transform pipeline preserves the line count whenever the Import
Normalizer does.  The Import Normalizer itself can merge lines: an import
statement spanning several lines is rewritten into a single line (see the
counterexample), which is the only way the pipeline can change the line
count. -/
theorem C1_line_preservation :
    (∀ s : String,
      (splitNl (wrapCodeToCapture s).data).length = (splitNl s.data).length) ∧
    (∀ (s : String) (i : Nat), i < (splitNl s.data).length →
      (splitNl (wrapCodeToCapture s).data).getD i [] = (splitNl s.data).getD i [] ∨
      (splitNl (wrapCodeToCapture s).data).getD i [] =
        wrapLine ((splitNl s.data).getD i [])) ∧
    (∀ s : String,
      (splitNl (convertImportsToRequire s).data).length = (splitNl s.data).length →
      (splitNl (transformPipeline s).data).length = (splitNl s.data).length) := by
  refine ⟨?_, ?_, ?_⟩
  · intro s
    rw [wrap_split]
    exact wrapGo_length _ _
  · intro s i hi
    rw [wrap_split]
    exact wrapGo_getD _ _ i hi
  · intro s hconv
    show (splitNl (wrapCodeForAsync (convertImportsToRequire s)).data).length = _
    show (splitNl (wrapCodeToCapture (convertImportsToRequire s)).data).length = _
    rw [wrap_split, wrapGo_length, hconv]

/-- Witness for C1_line_preservation at concrete inputs: the pointwise
conjunct on a two-line snippet at index 1, and the pipeline conjunct on a
snippet the Import Normalizer leaves alone. -/
theorem C1_line_preservation_witness :
    ((0 : Nat) < (splitNl ("2 + 2" : String).data).length ∧
     ((splitNl (wrapCodeToCapture "2 + 2").data).getD 0 [] =
        (splitNl ("2 + 2" : String).data).getD 0 [] ∨
      (splitNl (wrapCodeToCapture "2 + 2").data).getD 0 [] =
        wrapLine ((splitNl ("2 + 2" : String).data).getD 0 []))) ∧
    ((splitNl (convertImportsToRequire "2 + 2").data).length =
       (splitNl ("2 + 2" : String).data).length ∧
     (splitNl (transformPipeline "2 + 2").data).length =
       (splitNl ("2 + 2" : String).data).length) :=
  ⟨⟨by decide, C1_line_preservation.2.1 "2 + 2" 0 (by decide)⟩,
   ⟨by decide, C1_line_preservation.2.2 "2 + 2" (by decide)⟩⟩

/-! ## Claim C7 -/

theorem foldl_emit_str {α : Type} (g : α → String) :
    ∀ (l : List α) (init : String),
      l.foldl (fun acc h => acc ++ g h) init = init ++ strConcat (l.map g) := by
  intro l
  induction l with
  | nil => intro init; simp [strConcat]
  | cons x rest ih =>
    intro init
    simp only [List.foldl_cons, List.map_cons, strConcat]
    rw [ih, String.append_assoc]

theorem collectKeys_eq (arr : List JsValue) :
    collectKeys arr = dedupFirst (arr.flatMap jsKeysIfObject) := by
  unfold collectKeys dedupFirst
  have h : ∀ (a : List JsValue) (acc : List String),
      a.foldl (fun acc o => (jsKeysIfObject o).foldl insertKey acc) acc =
      (a.flatMap jsKeysIfObject).foldl insertKey acc := by
    intro a
    induction a with
    | nil => intro acc; rfl
    | cons x rest ih =>
      intro acc
      simp only [List.foldl_cons, List.flatMap_cons]
      rw [List.foldl_append, ih]
  exact h arr []

/-- C7 (confirmed): for every non-empty array whose first element is a
plain object, stringify renders the HTML table whose header row is
exactly the union of the keys of all elements in first-appearance order,
with one body row per element and one cell per header key, every header
and cell HTML-escaped; and the cell content follows the claimed rules —
a missing key (undefined) gives an empty cell, null gives the literal
null, and a nested object or array gives its compact JSON notation. -/
theorem C7_table_rendering :
    (∀ (kvs : List (String × JsValue)) (rest : List JsValue),
      stringify (.arrV (.objV kvs :: rest)) = formatAsTable (.objV kvs :: rest) ∧
      formatAsTable (.objV kvs :: rest) =
        tableHtml
          ((claimHeaders (.objV kvs :: rest)).map escapeHtml)
          ((JsValue.objV kvs :: rest).map fun el =>
            (claimHeaders (.objV kvs :: rest)).map fun h =>
              escapeHtml (displayValue (jsGet el h)))) ∧
    displayValue .undefinedV = "" ∧
    displayValue .nullV = "null" ∧
    (∀ kvs, displayValue (.objV kvs) = jsonStr (.objV kvs)) ∧
    (∀ l, displayValue (.arrV l) = jsonStr (.arrV l)) := by
  refine ⟨?_, rfl, rfl, fun kvs => rfl, fun l => rfl⟩
  intro kvs rest
  constructor
  · show (if (JsValue.objV kvs :: rest).length > 0 &&
        isArrayOfObjects (JsValue.objV kvs :: rest) then
        formatAsTable (JsValue.objV kvs :: rest)
      else jsonPretty 0 (.arrV (JsValue.objV kvs :: rest))) = _
    rw [if_pos]
    simp [isArrayOfObjects, typeofStr]
  · unfold formatAsTable
    rw [if_neg (by simp)]
    dsimp only
    rw [collectKeys_eq]
    have hth : (fun (acc : String) (h : String) =>
        acc ++ "      <th>" ++ escapeHtml h ++ "</th>\n") =
        (fun acc h => acc ++ ("      <th>" ++ escapeHtml h ++ "</th>\n")) := by
      funext acc h
      simp [String.append_assoc]
    have htd : ∀ o : JsValue, (fun (acc2 : String) (h : String) =>
        acc2 ++ "      <td>" ++ escapeHtml (displayValue (jsGet o h)) ++ "</td>\n") =
        (fun acc2 h => acc2 ++
          ("      <td>" ++ escapeHtml (displayValue (jsGet o h)) ++ "</td>\n")) := by
      intro o
      funext acc2 h
      simp [String.append_assoc]
    have hrow : (fun (acc : String) (o : JsValue) =>
        ((dedupFirst ((JsValue.objV kvs :: rest).flatMap jsKeysIfObject)).foldl
          (fun acc2 h =>
            acc2 ++ "      <td>" ++ escapeHtml (displayValue (jsGet o h)) ++ "</td>\n")
          (acc ++ "    <tr>\n")) ++ "    </tr>\n") =
        (fun acc o => acc ++
          ("    <tr>\n" ++
           strConcat ((dedupFirst ((JsValue.objV kvs :: rest).flatMap jsKeysIfObject)).map
             fun h => "      <td>" ++ escapeHtml (displayValue (jsGet o h)) ++ "</td>\n") ++
           "    </tr>\n")) := by
      funext acc o
      rw [htd o, foldl_emit_str]
      simp [String.append_assoc]
    rw [hth, foldl_emit_str, hrow, foldl_emit_str]
    unfold tableHtml claimHeaders
    simp only [List.map_map]
    simp [String.append_assoc, Function.comp_def]

/-! ## Claim C5

The idempotence proof is a simulation argument: running the auto-logger a
second time over its own output takes, at every line, a branch that emits
the line unchanged and reproduces the same state trajectory.  The only
lines the second pass sees that the first pass did not are wrapped lines,
and those are caught by the console pass-through branch; the look-ahead
(does the next trimmed line start with a dot) is preserved because a line
is never wrapped while the chained-call flag is set, and wrapping never
produces a line whose trimmed form starts with a dot. -/

theorem mem_takeWhile_isJsSpace (l : List Char) (c : Char)
    (h : c ∈ l.takeWhile isJsSpace) : isJsSpace c = true :=
  List.mem_takeWhile_imp h

theorem dropWhile_takeWhile_append (ind core : List Char)
    (hind : ∀ c ∈ ind, isJsSpace c = true) (hcore : core.dropWhile isJsSpace = core) :
    (ind ++ core).dropWhile isJsSpace = core := by
  induction ind with
  | nil => simpa using hcore
  | cons c rest ih =>
    simp only [List.cons_append, List.dropWhile_cons]
    rw [if_pos (hind c (by simp))]
    exact ih (fun d hd => hind d (by simp [hd]))

theorem dropRightSpaces_append_notspace (l : List Char) (d : Char)
    (hd : ¬ isJsSpace d = true) : dropRightSpaces (l ++ [d]) = l ++ [d] := by
  unfold dropRightSpaces
  rw [List.reverse_append]
  show ((d :: l.reverse).dropWhile isJsSpace).reverse = _
  rw [List.dropWhile_cons, if_neg hd, List.reverse_cons, List.reverse_reverse]

theorem wrapLine_assoc (x : List Char) :
    wrapLine x = x.takeWhile isJsSpace ++
      ("console.log(".data ++ (trimL x ++ [')'])) := by
  unfold wrapLine
  simp [List.append_assoc]

theorem trimL_wrapLine (x : List Char) :
    trimL (wrapLine x) = "console.log(".data ++ trimL x ++ [')'] := by
  rw [wrapLine_assoc]
  show dropRightSpaces ((x.takeWhile isJsSpace ++
    ("console.log(".data ++ (trimL x ++ [')']))).dropWhile isJsSpace) = _
  rw [dropWhile_takeWhile_append _ _
      (fun c hc => mem_takeWhile_isJsSpace x c hc)
      (by
        rw [show "console.log(".data ++ (trimL x ++ [')']) =
          'c' :: ("onsole.log(".data ++ (trimL x ++ [')'])) from rfl]
        rw [List.dropWhile_cons, if_neg (by decide)])]
  rw [show "console.log(".data ++ (trimL x ++ [')']) =
    ("console.log(".data ++ trimL x) ++ [')'] from by simp [List.append_assoc]]
  rw [dropRightSpaces_append_notspace _ _ (by decide)]

theorem trimStartsDot_wrapLine (x : List Char) :
    trimStartsDot (wrapLine x) = false := by
  unfold trimStartsDot
  rw [trimL_wrapLine]
  rw [show "console.log(".data ++ trimL x ++ [')'] =
    'c' :: ("onsole.log(".data ++ trimL x ++ [')']) from rfl]
  simp

theorem containsL_of_isPre (p l : List Char) (h : isPrefixL p l = true) :
    containsL p l = true := by
  cases l with
  | nil => simpa [containsL] using h
  | cons c rest => simp [containsL, h]

theorem console_in_trim_wrapLine (x : List Char) :
    containsL "console.".data (trimL (wrapLine x)) = true := by
  rw [trimL_wrapLine]
  rw [show "console.log(".data ++ trimL x ++ [')'] =
    "console.".data ++ ("log(".data ++ trimL x ++ [')']) from rfl]
  exact containsL_of_isPre _ _ (isPrefixL_append_self _ _)

theorem stepB_wrapped (st : WrapSt) (x : List Char) (nd : Bool) :
    stepB st (wrapLine x) nd = (wrapLine x, st) := by
  unfold stepB
  dsimp only
  rw [if_neg (by
    rw [trimL_wrapLine]
    rw [show "console.log(".data ++ trimL x ++ [')'] =
      'c' :: ("onsole.log(".data ++ trimL x ++ [')']) from rfl]
    simp [isPrefixL])]
  rw [if_pos (console_in_trim_wrapLine x)]

theorem stepB_chain_fst (st : WrapSt) (x : List Char) (nd : Bool)
    (h : st.insideChainedCall = true) : (stepB st x nd).1 = x := by
  unfold stepB
  dsimp only
  split_ifs <;> simp_all

theorem nextDot_wrapGo_false (st : WrapSt) (xs : List (List Char))
    (h : nextDotHead xs = false) : nextDotHead (wrapGo st xs) = false := by
  cases xs with
  | nil => rfl
  | cons n rest =>
    show trimStartsDot (stepB st n (nextDotHead rest)).1 = false
    rcases stepB_fst st n (nextDotHead rest) with h2 | h2 <;> rw [h2]
    · exact h
    · exact trimStartsDot_wrapLine n

theorem nextDot_wrapGo_chain (st : WrapSt) (xs : List (List Char))
    (h : st.insideChainedCall = true) :
    nextDotHead (wrapGo st xs) = nextDotHead xs := by
  cases xs with
  | nil => rfl
  | cons n rest =>
    show trimStartsDot (stepB st n (nextDotHead rest)).1 = trimStartsDot n
    rw [stepB_chain_fst st n (nextDotHead rest) h]

theorem stepB_eq1 (st : WrapSt) (x : List Char) (nd : Bool)
    (h1 : ((trimL x).isEmpty || isPrefixL "//".data (trimL x) ||
      isPrefixL "/*".data (trimL x) || isPrefixL ['*'] (trimL x)) = true) :
    stepB st x nd = (x, st) := by
  unfold stepB
  dsimp only
  rw [if_pos h1]

theorem stepB_eq2 (st : WrapSt) (x : List Char) (nd : Bool)
    (h1 : ¬ ((trimL x).isEmpty || isPrefixL "//".data (trimL x) ||
      isPrefixL "/*".data (trimL x) || isPrefixL ['*'] (trimL x)) = true)
    (h2 : containsL "console.".data (trimL x) = true) :
    stepB st x nd = (x, st) := by
  unfold stepB
  dsimp only
  rw [if_neg h1, if_pos h2]

theorem stepB_eq3 (st : WrapSt) (x : List Char) (nd : Bool)
    (h1 : ¬ ((trimL x).isEmpty || isPrefixL "//".data (trimL x) ||
      isPrefixL "/*".data (trimL x) || isPrefixL ['*'] (trimL x)) = true)
    (h2 : ¬ containsL "console.".data (trimL x) = true)
    (h3 : varDeclTest (trimL x) = true) :
    stepB st x nd = (x, varUpd st (trimL x)) := by
  unfold stepB
  dsimp only
  rw [if_neg h1, if_neg h2, if_pos h3]

theorem stepB_eq4 (st : WrapSt) (x : List Char) (nd : Bool)
    (h1 : ¬ ((trimL x).isEmpty || isPrefixL "//".data (trimL x) ||
      isPrefixL "/*".data (trimL x) || isPrefixL ['*'] (trimL x)) = true)
    (h2 : ¬ containsL "console.".data (trimL x) = true)
    (h3 : ¬ varDeclTest (trimL x) = true)
    (h4 : st.insideMultiLine = true) :
    stepB st x nd = (x, multiUpd st (trimL x)) := by
  unfold stepB
  dsimp only
  rw [if_neg h1, if_neg h2, if_neg h3, if_pos h4]

theorem stepB_eq5 (st : WrapSt) (x : List Char) (nd : Bool)
    (h1 : ¬ ((trimL x).isEmpty || isPrefixL "//".data (trimL x) ||
      isPrefixL "/*".data (trimL x) || isPrefixL ['*'] (trimL x)) = true)
    (h2 : ¬ containsL "console.".data (trimL x) = true)
    (h3 : ¬ varDeclTest (trimL x) = true)
    (h4 : ¬ st.insideMultiLine = true)
    (h5 : (chainCallTest (trimL x) && !isSuffixL ");".data (trimL x) && nd) = true) :
    stepB st x nd = (x, { st with insideChainedCall := true }) := by
  unfold stepB
  dsimp only
  rw [if_neg h1, if_neg h2, if_neg h3, if_neg h4, if_pos h5]

theorem stepB_eq6 (st : WrapSt) (x : List Char) (nd : Bool)
    (h1 : ¬ ((trimL x).isEmpty || isPrefixL "//".data (trimL x) ||
      isPrefixL "/*".data (trimL x) || isPrefixL ['*'] (trimL x)) = true)
    (h2 : ¬ containsL "console.".data (trimL x) = true)
    (h3 : ¬ varDeclTest (trimL x) = true)
    (h4 : ¬ st.insideMultiLine = true)
    (h5 : ¬ (chainCallTest (trimL x) && !isSuffixL ");".data (trimL x) && nd) = true)
    (h6 : st.insideChainedCall = true) :
    stepB st x nd = (x, { st with insideChainedCall := chainContinue (trimL x) nd }) := by
  unfold stepB
  dsimp only
  rw [if_neg h1, if_neg h2, if_neg h3, if_neg h4, if_neg h5, if_pos h6]

theorem stepB_eq7 (st : WrapSt) (x : List Char) (nd : Bool)
    (h1 : ¬ ((trimL x).isEmpty || isPrefixL "//".data (trimL x) ||
      isPrefixL "/*".data (trimL x) || isPrefixL ['*'] (trimL x)) = true)
    (h2 : ¬ containsL "console.".data (trimL x) = true)
    (h3 : ¬ varDeclTest (trimL x) = true)
    (h4 : ¬ st.insideMultiLine = true)
    (h5 : ¬ (chainCallTest (trimL x) && !isSuffixL ");".data (trimL x) && nd) = true)
    (h6 : ¬ st.insideChainedCall = true)
    (h7 : isControlFlowStatement (trimL x) = true) :
    stepB st x nd = (x, st) := by
  unfold stepB
  dsimp only
  rw [if_neg h1, if_neg h2, if_neg h3, if_neg h4, if_neg h5, if_neg h6, if_pos h7]

theorem stepB_eq8 (st : WrapSt) (x : List Char) (nd : Bool)
    (h1 : ¬ ((trimL x).isEmpty || isPrefixL "//".data (trimL x) ||
      isPrefixL "/*".data (trimL x) || isPrefixL ['*'] (trimL x)) = true)
    (h2 : ¬ containsL "console.".data (trimL x) = true)
    (h3 : ¬ varDeclTest (trimL x) = true)
    (h4 : ¬ st.insideMultiLine = true)
    (h5 : ¬ (chainCallTest (trimL x) && !isSuffixL ");".data (trimL x) && nd) = true)
    (h6 : ¬ st.insideChainedCall = true)
    (h7 : ¬ isControlFlowStatement (trimL x) = true)
    (h8 : isStructuralLine (trimL x) = true) :
    stepB st x nd = (x, st) := by
  unfold stepB
  dsimp only
  rw [if_neg h1, if_neg h2, if_neg h3, if_neg h4, if_neg h5, if_neg h6,
    if_neg h7, if_pos h8]

theorem stepB_eq9 (st : WrapSt) (x : List Char) (nd : Bool)
    (h1 : ¬ ((trimL x).isEmpty || isPrefixL "//".data (trimL x) ||
      isPrefixL "/*".data (trimL x) || isPrefixL ['*'] (trimL x)) = true)
    (h2 : ¬ containsL "console.".data (trimL x) = true)
    (h3 : ¬ varDeclTest (trimL x) = true)
    (h4 : ¬ st.insideMultiLine = true)
    (h5 : ¬ (chainCallTest (trimL x) && !isSuffixL ");".data (trimL x) && nd) = true)
    (h6 : ¬ st.insideChainedCall = true)
    (h7 : ¬ isControlFlowStatement (trimL x) = true)
    (h8 : ¬ isStructuralLine (trimL x) = true)
    (h9 : shouldAutoLog (trimL x) = true) :
    stepB st x nd = (wrapLine x, st) := by
  unfold stepB
  dsimp only
  rw [if_neg h1, if_neg h2, if_neg h3, if_neg h4, if_neg h5, if_neg h6,
    if_neg h7, if_neg h8, if_pos h9]

theorem stepB_eq10 (st : WrapSt) (x : List Char) (nd : Bool)
    (h1 : ¬ ((trimL x).isEmpty || isPrefixL "//".data (trimL x) ||
      isPrefixL "/*".data (trimL x) || isPrefixL ['*'] (trimL x)) = true)
    (h2 : ¬ containsL "console.".data (trimL x) = true)
    (h3 : ¬ varDeclTest (trimL x) = true)
    (h4 : ¬ st.insideMultiLine = true)
    (h5 : ¬ (chainCallTest (trimL x) && !isSuffixL ");".data (trimL x) && nd) = true)
    (h6 : ¬ st.insideChainedCall = true)
    (h7 : ¬ isControlFlowStatement (trimL x) = true)
    (h8 : ¬ isStructuralLine (trimL x) = true)
    (h9 : ¬ shouldAutoLog (trimL x) = true) :
    stepB st x nd = (x, st) := by
  unfold stepB
  dsimp only
  rw [if_neg h1, if_neg h2, if_neg h3, if_neg h4, if_neg h5, if_neg h6,
    if_neg h7, if_neg h8, if_neg h9]

/-- The key simulation step: feeding the output line of one loop
iteration back through the loop from the same incoming state, with the
second-pass look-ahead, reproduces the same output line and the same next
state. -/
theorem stepB_pass2 (st : WrapSt) (x : List Char) (xs : List (List Char)) :
    stepB st (stepB st x (nextDotHead xs)).1
      (nextDotHead (wrapGo (stepB st x (nextDotHead xs)).2 xs)) =
    stepB st x (nextDotHead xs) := by
  by_cases h1 : ((trimL x).isEmpty || isPrefixL "//".data (trimL x) ||
      isPrefixL "/*".data (trimL x) || isPrefixL ['*'] (trimL x)) = true
  · rw [stepB_eq1 st x (nextDotHead xs) h1]
    exact stepB_eq1 st x _ h1
  by_cases h2 : containsL "console.".data (trimL x) = true
  · rw [stepB_eq2 st x (nextDotHead xs) h1 h2]
    exact stepB_eq2 st x _ h1 h2
  by_cases h3 : varDeclTest (trimL x) = true
  · rw [stepB_eq3 st x (nextDotHead xs) h1 h2 h3]
    exact stepB_eq3 st x _ h1 h2 h3
  by_cases h4 : st.insideMultiLine = true
  · rw [stepB_eq4 st x (nextDotHead xs) h1 h2 h3 h4]
    exact stepB_eq4 st x _ h1 h2 h3 h4
  by_cases h5 : (chainCallTest (trimL x) && !isSuffixL ");".data (trimL x) &&
      nextDotHead xs) = true
  · rw [stepB_eq5 st x (nextDotHead xs) h1 h2 h3 h4 h5]
    show stepB st x
      (nextDotHead (wrapGo { st with insideChainedCall := true } xs)) = _
    rw [nextDot_wrapGo_chain { st with insideChainedCall := true } xs rfl]
    exact stepB_eq5 st x _ h1 h2 h3 h4 h5
  by_cases h6 : st.insideChainedCall = true
  · rw [stepB_eq6 st x (nextDotHead xs) h1 h2 h3 h4 h5 h6]
    show stepB st x (nextDotHead (wrapGo
      { st with insideChainedCall := chainContinue (trimL x) (nextDotHead xs) } xs)) =
      (x, { st with insideChainedCall := chainContinue (trimL x) (nextDotHead xs) })
    by_cases hcc : chainContinue (trimL x) (nextDotHead xs) = true
    · rw [hcc]
      rw [nextDot_wrapGo_chain { st with insideChainedCall := true } xs rfl]
      rw [stepB_eq6 st x (nextDotHead xs) h1 h2 h3 h4 h5 h6, hcc]
    · rw [Bool.not_eq_true] at hcc
      rw [hcc]
      have hcond : (!(trimStartsDot (trimL x)) ||
          (isSuffixL [')'] (trimL x) && !(nextDotHead xs))) = true := by
        by_contra hcnot
        unfold chainContinue at hcc
        rw [if_neg hcnot] at hcc
        cases hcc
      by_cases hD : trimStartsDot (trimL x) = true
      · have hEn : (isSuffixL [')'] (trimL x) && !(nextDotHead xs)) = true := by
          rw [Bool.or_eq_true] at hcond
          rcases hcond with hA | hB
          · rw [hD] at hA
            cases hA
          · exact hB
        rw [Bool.and_eq_true] at hEn
        have hE : isSuffixL [')'] (trimL x) = true := hEn.1
        have hnd1 : nextDotHead xs = false := by
          have hx := hEn.2
          cases hv : nextDotHead xs
          · rfl
          · rw [hv] at hx
            cases hx
        rw [nextDot_wrapGo_false { st with insideChainedCall := false } xs hnd1]
        rw [stepB_eq6 st x false h1 h2 h3 h4 (by simp) h6]
        have hcf : chainContinue (trimL x) false = false := by
          unfold chainContinue
          rw [if_pos (by simp [hE])]
        rw [hcf]
      · have hDf : trimStartsDot (trimL x) = false := by
          cases hv : trimStartsDot (trimL x)
          · rfl
          · exact absurd hv hD
        have hccAll : ∀ nd', chainContinue (trimL x) nd' = false := by
          intro nd'
          unfold chainContinue
          rw [if_pos (by simp [hDf])]
        by_cases hAB : (chainCallTest (trimL x) &&
            !isSuffixL ");".data (trimL x)) = true
        · have hnd1 : nextDotHead xs = false := by
            cases hv : nextDotHead xs
            · rfl
            · exact absurd (by rw [hv, Bool.and_true]; exact hAB) h5
          rw [nextDot_wrapGo_false { st with insideChainedCall := false } xs hnd1]
          rw [stepB_eq6 st x false h1 h2 h3 h4 (by simp) h6, hccAll false]
        · have h5' : ¬ (chainCallTest (trimL x) && !isSuffixL ");".data (trimL x) &&
              nextDotHead (wrapGo { st with insideChainedCall := false } xs)) = true := by
            intro hcontr
            rw [Bool.and_eq_true] at hcontr
            exact hAB hcontr.1
          rw [stepB_eq6 st x _ h1 h2 h3 h4 h5' h6, hccAll _]
  -- branches 7-10: the state is unchanged (or the line is wrapped)
  have h5'2 : ¬ (chainCallTest (trimL x) && !isSuffixL ");".data (trimL x) &&
      nextDotHead (wrapGo st xs)) = true := by
    intro hcontr
    rw [Bool.and_eq_true] at hcontr
    obtain ⟨hAB, hnd2⟩ := hcontr
    have hnd1 : nextDotHead xs = false := by
      cases hv : nextDotHead xs
      · rfl
      · exact absurd (by rw [hv, Bool.and_true]; exact hAB) h5
    rw [nextDot_wrapGo_false st xs hnd1] at hnd2
    cases hnd2
  by_cases h7 : isControlFlowStatement (trimL x) = true
  · rw [stepB_eq7 st x (nextDotHead xs) h1 h2 h3 h4 h5 h6 h7]
    exact stepB_eq7 st x _ h1 h2 h3 h4 h5'2 h6 h7
  by_cases h8 : isStructuralLine (trimL x) = true
  · rw [stepB_eq8 st x (nextDotHead xs) h1 h2 h3 h4 h5 h6 h7 h8]
    exact stepB_eq8 st x _ h1 h2 h3 h4 h5'2 h6 h7 h8
  by_cases h9 : shouldAutoLog (trimL x) = true
  · rw [stepB_eq9 st x (nextDotHead xs) h1 h2 h3 h4 h5 h6 h7 h8 h9]
    exact stepB_wrapped st x _
  · rw [stepB_eq10 st x (nextDotHead xs) h1 h2 h3 h4 h5 h6 h7 h8 h9]
    exact stepB_eq10 st x _ h1 h2 h3 h4 h5'2 h6 h7 h8 h9

/-- The auto-logger loop is idempotent from any state: feeding its own
output back with the same initial state reproduces it. -/
theorem wrapGo_idem (st : WrapSt) (ls : List (List Char)) :
    wrapGo st (wrapGo st ls) = wrapGo st ls := by
  induction ls generalizing st with
  | nil => rfl
  | cons x xs ih =>
    show wrapGo st ((stepB st x (nextDotHead xs)).1 ::
      wrapGo (stepB st x (nextDotHead xs)).2 xs) = _
    show (stepB st (stepB st x (nextDotHead xs)).1
        (nextDotHead (wrapGo (stepB st x (nextDotHead xs)).2 xs))).1 ::
      wrapGo (stepB st (stepB st x (nextDotHead xs)).1
        (nextDotHead (wrapGo (stepB st x (nextDotHead xs)).2 xs))).2
        (wrapGo (stepB st x (nextDotHead xs)).2 xs) = _
    rw [stepB_pass2 st x xs]
    rw [ih (stepB st x (nextDotHead xs)).2]
    rfl

/-- C5 (confirmed): the Expression Auto-Logger is idempotent — applying
wrapCodeToCapture to its own output returns that output unchanged, so a
line already rewritten to a console.log wrapper is classified as
pass-through on the second pass (it contains the text console.) and is
never wrapped twice. -/
theorem C5_autologger_idempotent :
    ∀ s : String, wrapCodeToCapture (wrapCodeToCapture s) = wrapCodeToCapture s := by
  intro s
  show String.mk (joinNl (wrapGo initWrapSt
      (splitNl (String.mk (joinNl (wrapGo initWrapSt (splitNl s.data)))).data))) = _
  rw [show (String.mk (joinNl (wrapGo initWrapSt (splitNl s.data)))).data =
    joinNl (wrapGo initWrapSt (splitNl s.data)) from rfl]
  rw [splitNl_joinNl (wrapGo initWrapSt (splitNl s.data))
    (by
      intro h
      have h1 := wrapGo_length initWrapSt (splitNl s.data)
      rw [h] at h1
      exact splitNl_ne_nil s.data (List.length_eq_zero.mp h1.symm))
    (wrapGo_no_nl _ _ (mem_splitNl_no_nl s.data))]
  rw [wrapGo_idem]
  rfl

end Ockla
